import Mathlib

/-!
Shallow embedding of `src/opentrons/instruments/magbead.py`.

The file under src/ defines the `Magbead` instrument facade: its constructor
`__init__`, and the three action methods `engage`, `disengage`, `delay`.
Each action builds a Command Descriptor (a `_setup` closure mutating the
facade, a `_do` closure invoking the external Motor Handle, and a description
string) and hands it to `Instrument.create_command`.

`Instrument.create_command`, the platform queue executor, and the calibration
store are code of this repository that is not under src/; where a definition
embeds them it is modelled from the spec and says so in its doc comment.
-/

/-- An invocation of the external Motor Handle (mosfet driver):
`engage()`, `disengage()` or `wait(seconds)`. -/
inductive MotorAction where
  | engage
  | disengage
  | wait (seconds : Int)
  deriving DecidableEq, Repr

/-- The observable fields the constructor `Magbead.__init__` sets on the
facade.  `motor` stands for the string rendering of the resolved motor
handle (it appears in descriptions through `format`). -/
structure Magbead where
  axis : String
  motor : String
  name : String
  persisted_data : List String
  calibration_key : String
  container : Option String
  engaged : Bool
  deriving DecidableEq, Repr

/-- A Command Descriptor, as passed to
`create_command(do=_do, setup=_setup, description=_description)`:
`setup` is the `_setup` closure mutating the facade, `doPhase` the sequence of
Motor Handle invocations the `_do` closure performs when it runs, and
`description` the human-readable string. -/
structure Command where
  setup : Magbead → Magbead
  doPhase : List MotorAction
  description : String

/-- Robot-side state relevant to the facade: the facade itself, the shared
ordered command queue, and the log of Motor Handle invocations performed so
far. -/
structure RobotState where
  bead : Magbead
  queue : List Command
  motorLog : List MotorAction

/-- The constructor `Magbead.__init__(name=None, mosfet=0, container=None)`:
`self.axis = 'M{}'.format(mosfet)`; `if not name: name = 'Magbead'`
(Python's `not` is true for both `None` and the empty string);
`self.calibration_key = '{axis}:{instrument_name}'.format(...)`;
`self.engaged = False`.  Robot registration and mosfet resolution are
external; `motorRef` is the resolved handle's rendering.
Modelled from the spec: `Instrument.init_calibrations` and
`load_persisted_data` are not under src/ — per the spec, `persistedData` is
populated at construction from the Calibration Store (`store`) under the
`axis:name` key. -/
def Magbead.init (name : Option String) (mosfet : Nat) (container : Option String)
    (motorRef : String) (store : String → List String) : Magbead :=
  let axis := "M" ++ Nat.repr mosfet
  let name' := match name with
    | none => "Magbead"
    | some s => if s = "" then "Magbead" else s
  { axis := axis
    motor := motorRef
    name := name'
    persisted_data := store (axis ++ ":" ++ name')
    calibration_key := axis ++ ":" ++ name'
    container := container
    engaged := false }

/-- Modelled from the spec: `Instrument.create_command` is not under src/.
Per the spec's `submitOrRun(setup, do, description, deferred)` contract, the
`setup` phase always runs synchronously at submission; then, when `enqueue`
is true the Descriptor is appended to the shared queue, and when false the
`do` phase runs immediately in the calling context. -/
def create_command (cmd : Command) (enqueue : Bool) (s : RobotState) : RobotState :=
  let s' := { s with bead := cmd.setup s.bead }
  if enqueue then
    { s' with queue := s'.queue ++ [cmd] }
  else
    { s' with motorLog := s'.motorLog ++ cmd.doPhase }

/-- Modelled from the spec: the platform's queue executor is not under src/.
Per the spec, draining the queue replays `setup` then `do` for every
Descriptor in submission order, leaving the queue empty. -/
def drainQueue (s : RobotState) : RobotState :=
  s.queue.foldl
    (fun acc c => { acc with bead := c.setup acc.bead, motorLog := acc.motorLog ++ c.doPhase })
    { s with queue := [] }

/-- The Command Descriptor built inside `Magbead.engage`: `_setup` sets
`self.engaged = True`, `_do` calls `self.motor.engage()`, and the description
is `"Engaging Magbead at mosfet #{}".format(self.motor)`. -/
def Magbead.engageCmd (b : Magbead) : Command :=
  { setup := fun m => { m with engaged := true }
    doPhase := [MotorAction.engage]
    description := "Engaging Magbead at mosfet #" ++ b.motor }

/-- The Command Descriptor built inside `Magbead.disengage`: `_setup` sets
`self.engaged = False`, `_do` calls `self.motor.disengage()`, and the
description is `"Engaging Magbead at mosfet #{}".format(self.motor)`
(the source text really says "Engaging" here). -/
def Magbead.disengageCmd (b : Magbead) : Command :=
  { setup := fun m => { m with engaged := false }
    doPhase := [MotorAction.disengage]
    description := "Engaging Magbead at mosfet #" ++ b.motor }

/-- The Command Descriptor built inside `Magbead.delay`: `_setup` is `pass`,
`_do` calls `self.motor.wait(seconds)`, and the description is
`"Delaying Magbead for {} seconds".format(seconds)`. -/
def Magbead.delayCmd (seconds : Int) : Command :=
  { setup := fun m => m
    doPhase := [MotorAction.wait seconds]
    description := "Delaying Magbead for " ++ toString seconds ++ " seconds" }

/-- The method `Magbead.engage(enqueue=True)`: builds the Descriptor and hands it to
`create_command`, then `return self`.  The second component is the returned
value, i.e. the facade object after the call. -/
def Magbead.engage (s : RobotState) (enqueue : Bool) : RobotState × Magbead :=
  let s' := create_command (s.bead.engageCmd) enqueue s
  (s', s'.bead)

/-- The method `Magbead.disengage(enqueue=True)`: builds the Descriptor and hands it to
`create_command`, then `return self`. -/
def Magbead.disengage (s : RobotState) (enqueue : Bool) : RobotState × Magbead :=
  let s' := create_command (s.bead.disengageCmd) enqueue s
  (s', s'.bead)

/-- The method `Magbead.delay(seconds, enqueue=True)`: builds the Descriptor and hands it
to `create_command`, then `return self`. -/
def Magbead.delay (s : RobotState) (seconds : Int) (enqueue : Bool) :
    RobotState × Magbead :=
  let s' := create_command (Magbead.delayCmd seconds) enqueue s
  (s', s'.bead)

/-- One call of an engage/disengage sequence (used to state the history
independence of `engaged`). -/
inductive Call where
  | engageCall
  | disengageCall
  deriving DecidableEq, Repr

/-- Run one `Call` with `enqueue = false` (the immediate path). -/
def applyCall (s : RobotState) (c : Call) : RobotState :=
  match c with
  | Call.engageCall => (Magbead.engage s false).1
  | Call.disengageCall => (Magbead.disengage s false).1

/-- A concrete robot state: a fresh facade at slot 0, empty queue, no motor
invocations yet. -/
def sampleState : RobotState :=
  { bead := Magbead.init none 0 none "m" (fun _ => []), queue := [], motorLog := [] }

/-- C1: for every robot state, `engage(enqueue=True)` sets `engaged` to true
synchronously at call time, appends exactly one Command Descriptor to the
queue, and performs no Motor Handle invocation (the motor log is unchanged);
reading `engaged` immediately after the call yields true. -/
theorem engage_deferred_spec (s : RobotState) :
    ((Magbead.engage s true).1).bead.engaged = true ∧
    ((Magbead.engage s true).1).queue = s.queue ++ [s.bead.engageCmd] ∧
    ((Magbead.engage s true).1).motorLog = s.motorLog :=
  ⟨rfl, rfl, rfl⟩

/-- C2: for every finite sequence of immediate (`enqueue=False`)
engage/disengage calls, `engaged` after each call depends only on that last
call — true for `engage`, false for `disengage` — regardless of the prior
history. -/
theorem engaged_pure_function_of_last_setup (s : RobotState) (prior : List Call)
    (c : Call) :
    (applyCall (prior.foldl applyCall s) c).bead.engaged =
      (match c with | Call.engageCall => true | Call.disengageCall => false) := by
  cases c <;> rfl

/-- C3: starting from an empty queue, the calls `engage(true)`, `delay(5, true)`,
`disengage(true)` in that order followed by draining the queue invoke the
Motor Handle actions in exactly the order engage, wait(5), disengage. -/
theorem queued_actions_submission_order (s : RobotState) (h : s.queue = []) :
    (drainQueue
      ((Magbead.disengage
        ((Magbead.delay ((Magbead.engage s true).1) 5 true).1) true).1)).motorLog =
      s.motorLog ++ [MotorAction.engage, MotorAction.wait 5, MotorAction.disengage] := by
  simp [drainQueue, Magbead.engage, Magbead.disengage, Magbead.delay, create_command,
    Magbead.engageCmd, Magbead.disengageCmd, Magbead.delayCmd, h]

/-- Witness for C3 at a concrete robot state. -/
theorem queued_actions_submission_order_witness :
    (drainQueue
      ((Magbead.disengage
        ((Magbead.delay ((Magbead.engage sampleState true).1) 5 true).1) true).1)).motorLog =
      sampleState.motorLog ++
        [MotorAction.engage, MotorAction.wait 5, MotorAction.disengage] :=
  queued_actions_submission_order sampleState rfl

/-- C4: for every robot state, `engage(enqueue=False)` runs both phases
immediately — setup then do — in the calling context: `engaged` becomes true,
exactly one engage invocation is appended to the motor log, the queue is
unchanged, and the facade itself is returned. -/
theorem engage_immediate_spec (s : RobotState) :
    ((Magbead.engage s false).1).bead.engaged = true ∧
    ((Magbead.engage s false).1).motorLog = s.motorLog ++ [MotorAction.engage] ∧
    ((Magbead.engage s false).1).queue = s.queue ∧
    (Magbead.engage s false).2 = ((Magbead.engage s false).1).bead :=
  ⟨rfl, rfl, rfl, rfl⟩

/-- C5: `disengage` is symmetric to `engage`: for every state and flag its
setup phase sets `engaged` to false and it returns the facade itself; its
Descriptor's do phase is exactly one Motor Handle disengage invocation; when
deferred the Descriptor is queued with no motor invocation, when immediate the
disengage invocation is performed at once with the queue unchanged. -/
theorem disengage_symmetric_spec (s : RobotState) (enqueue : Bool) :
    ((Magbead.disengage s enqueue).1).bead.engaged = false ∧
    (Magbead.disengage s enqueue).2 = ((Magbead.disengage s enqueue).1).bead ∧
    (s.bead.disengageCmd).doPhase = [MotorAction.disengage] ∧
    ((Magbead.disengage s true).1).queue = s.queue ++ [s.bead.disengageCmd] ∧
    ((Magbead.disengage s true).1).motorLog = s.motorLog ∧
    ((Magbead.disengage s false).1).motorLog = s.motorLog ++ [MotorAction.disengage] ∧
    ((Magbead.disengage s false).1).queue = s.queue := by
  cases enqueue <;> exact ⟨rfl, rfl, rfl, rfl, rfl, rfl, rfl⟩

/-- C8: for every seconds value (negative included) and every flag, the
setup phase of `delay` changes nothing on the facade (so `engaged`, `axis`, `name`,
`calibration_key`, `container` and `persisted_data` are all unchanged), and
its do phase passes the seconds value verbatim to the Motor Handle's wait
action, with no validation. -/
theorem delay_frame_and_verbatim (s : RobotState) (seconds : Int) (enqueue : Bool) :
    ((Magbead.delay s seconds enqueue).1).bead = s.bead ∧
    (Magbead.delayCmd seconds).doPhase = [MotorAction.wait seconds] ∧
    ((Magbead.delay s seconds true).1).queue = s.queue ++ [Magbead.delayCmd seconds] ∧
    ((Magbead.delay s seconds false).1).motorLog =
      s.motorLog ++ [MotorAction.wait seconds] := by
  cases enqueue <;> exact ⟨rfl, rfl, rfl, rfl⟩

/-- C9: the description of the Descriptor produced by `disengage` begins with
"Engaging", not "Disengaging" — it is textually identical to the one produced
by `engage`: "Engaging Magbead at mosfet #" followed by the motor
reference. -/
theorem disengage_description_engaging (b : Magbead) :
    (b.disengageCmd).description = (b.engageCmd).description ∧
    (b.disengageCmd).description = "Engaging Magbead at mosfet #" ++ b.motor ∧
    ∃ rest, (b.disengageCmd).description = "Engaging" ++ rest := by
  refine ⟨rfl, rfl, " Magbead at mosfet #" ++ b.motor, ?_⟩
  show "Engaging Magbead at mosfet #" ++ b.motor =
    "Engaging" ++ (" Magbead at mosfet #" ++ b.motor)
  rw [← String.append_assoc]
  congr 1

/-- C10: constructing a facade with the empty string as its name (not only
with the name omitted) also replaces it with "Magbead", so its calibration
key is "M" ++ slot ++ ":Magbead" rather than "M" ++ slot ++ ":". -/
theorem empty_name_defaults (mosfet : Nat) (container : Option String)
    (motorRef : String) (store : String → List String) :
    (Magbead.init (some "") mosfet container motorRef store).name = "Magbead" ∧
    (Magbead.init (some "") mosfet container motorRef store).calibration_key =
      "M" ++ Nat.repr mosfet ++ ":Magbead" := by
  refine ⟨rfl, ?_⟩
  show ("M" ++ Nat.repr mosfet) ++ ":" ++ "Magbead" = ("M" ++ Nat.repr mosfet) ++ ":Magbead"
  rw [String.append_assoc]
  congr 1

/-- C6 counterexample: constructing with the empty string supplied as the name
gives a facade whose `name` is not the supplied name (it is "Magbead"), so
"name equals the supplied name when one is given" fails at name = "". -/
theorem construction_name_counterexample :
    (Magbead.init (some "") 0 none "m" (fun _ => [])).name ≠ "" := by
  decide

/-- C6 (amended): after construction with any slot index `mosfet` and any
supplied or omitted name — omitted, the empty string, or a non-empty string —
`engaged` is false and `axis` is "M" followed by the decimal rendering of the
slot (slot 0 gives "M0"); `name` equals the supplied name when a non-empty
one is given, and otherwise (omitted, None, or the empty string) the concrete
type's canonical name "Magbead". -/
theorem construction_defaults (mosfet : Nat) (container : Option String)
    (motorRef : String) (store : String → List String) (n : String) (hn : n ≠ "") :
    (Magbead.init none mosfet container motorRef store).engaged = false ∧
    (Magbead.init (some "") mosfet container motorRef store).engaged = false ∧
    (Magbead.init (some n) mosfet container motorRef store).engaged = false ∧
    (Magbead.init none mosfet container motorRef store).axis = "M" ++ Nat.repr mosfet ∧
    (Magbead.init (some "") mosfet container motorRef store).axis = "M" ++ Nat.repr mosfet ∧
    (Magbead.init (some n) mosfet container motorRef store).axis = "M" ++ Nat.repr mosfet ∧
    (Magbead.init none 0 container motorRef store).axis = "M0" ∧
    (Magbead.init (some n) mosfet container motorRef store).name = n ∧
    (Magbead.init none mosfet container motorRef store).name = "Magbead" ∧
    (Magbead.init (some "") mosfet container motorRef store).name = "Magbead" := by
  refine ⟨rfl, rfl, rfl, rfl, rfl, rfl, ?_, ?_, rfl, rfl⟩
  · show "M" ++ Nat.repr 0 = "M0"
    decide
  · simp [Magbead.init, hn]

/-- Witness for C6 (amended) at slot 0 with the non-empty name "probe". -/
theorem construction_defaults_witness :
    (Magbead.init none 0 none "m" (fun _ => [])).engaged = false ∧
    (Magbead.init (some "") 0 none "m" (fun _ => [])).engaged = false ∧
    (Magbead.init (some "probe") 0 none "m" (fun _ => [])).engaged = false ∧
    (Magbead.init none 0 none "m" (fun _ => [])).axis = "M" ++ Nat.repr 0 ∧
    (Magbead.init (some "") 0 none "m" (fun _ => [])).axis = "M" ++ Nat.repr 0 ∧
    (Magbead.init (some "probe") 0 none "m" (fun _ => [])).axis = "M" ++ Nat.repr 0 ∧
    (Magbead.init none 0 none "m" (fun _ => [])).axis = "M0" ∧
    (Magbead.init (some "probe") 0 none "m" (fun _ => [])).name = "probe" ∧
    (Magbead.init none 0 none "m" (fun _ => [])).name = "Magbead" ∧
    (Magbead.init (some "") 0 none "m" (fun _ => [])).name = "Magbead" :=
  construction_defaults 0 none "m" (fun _ => []) "probe" (by decide)

/-- The decimal digit characters of a natural number: the list that
`Nat.toDigitsCore 10` produces once its fuel suffices. -/
def decChars (n : Nat) : List Char :=
  if _h : n < 10 then [Nat.digitChar n]
  else decChars (n / 10) ++ [Nat.digitChar (n % 10)]
decreasing_by
  simp_wf
  exact Nat.div_lt_self (by omega) (by omega)

/-- With enough fuel, `Nat.toDigitsCore 10` computes `decChars` onto the
accumulator. -/
theorem toDigitsCore_eq_decChars (fuel : Nat) :
    ∀ (n : Nat) (acc : List Char), n < fuel →
      Nat.toDigitsCore 10 fuel n acc = decChars n ++ acc := by
  induction fuel with
  | zero => omega
  | succ f ih =>
    intro n acc h
    simp only [Nat.toDigitsCore]
    by_cases h10 : n / 10 = 0
    · rw [if_pos h10]
      have hn : n < 10 := by omega
      have hmod : n % 10 = n := by omega
      rw [decChars, dif_pos hn, hmod]
      rfl
    · rw [if_neg h10]
      have hlt : n / 10 < f := by omega
      rw [ih (n / 10) _ hlt]
      have hd : decChars n = decChars (n / 10) ++ [Nat.digitChar (n % 10)] := by
        rw [decChars, dif_neg (show ¬ n < 10 by omega)]
      rw [hd, List.append_assoc]
      rfl

/-- Rendering with `Nat.repr` yields exactly the `decChars` digit list. -/
theorem repr_data (n : Nat) : (Nat.repr n).data = decChars n := by
  show (Nat.toDigits 10 n).asString.data = decChars n
  rw [Nat.toDigits, toDigitsCore_eq_decChars (n + 1) n [] (by omega)]
  simp [List.asString]

/-- Digit characters of values below ten are never the colon separator. -/
theorem digitChar_ne_colon : ∀ d, d < 10 → Nat.digitChar d ≠ ':' := by decide

/-- The map `Nat.digitChar` is injective below ten. -/
theorem digitChar_inj_lt :
    ∀ d, d < 10 → ∀ e, e < 10 → Nat.digitChar d = Nat.digitChar e → d = e := by decide

/-- A decimal rendering is never empty. -/
theorem decChars_ne_nil (n : Nat) : decChars n ≠ [] := by
  rw [decChars]
  split <;> simp

/-- No character of a decimal rendering is the colon separator. -/
theorem decChars_ne_colon (n : Nat) : ∀ c ∈ decChars n, c ≠ ':' := by
  induction n using Nat.strong_induction_on with
  | _ n ih =>
    rw [decChars]
    split
    · next h =>
      intro c hc
      rw [List.mem_singleton] at hc
      subst hc
      exact digitChar_ne_colon _ h
    · next h =>
      intro c hc
      rw [List.mem_append, List.mem_singleton] at hc
      rcases hc with hc | hc
      · exact ih (n / 10) (Nat.div_lt_self (by omega) (by omega)) c hc
      · subst hc
        exact digitChar_ne_colon _ (Nat.mod_lt _ (by omega))

/-- Decimal renderings are injective. -/
theorem decChars_inj : ∀ m n, decChars m = decChars n → m = n := by
  intro m
  induction m using Nat.strong_induction_on with
  | _ m ih =>
    intro n h
    by_cases hm : m < 10 <;> by_cases hn : n < 10
    · have em : decChars m = [Nat.digitChar m] := by rw [decChars, dif_pos hm]
      have en : decChars n = [Nat.digitChar n] := by rw [decChars, dif_pos hn]
      rw [em, en] at h
      simp only [List.cons.injEq, and_true] at h
      exact digitChar_inj_lt m hm n hn h
    · have em : decChars m = [Nat.digitChar m] := by rw [decChars, dif_pos hm]
      have en : decChars n = decChars (n / 10) ++ [Nat.digitChar (n % 10)] := by
        rw [decChars, dif_neg hn]
      rw [em, en] at h
      have hlen := congrArg List.length h
      simp only [List.length_singleton, List.length_append, List.length_cons,
        List.length_nil] at hlen
      have : decChars (n / 10) = [] := List.length_eq_zero.mp (by omega)
      exact absurd this (decChars_ne_nil _)
    · have em : decChars m = decChars (m / 10) ++ [Nat.digitChar (m % 10)] := by
        rw [decChars, dif_neg hm]
      have en : decChars n = [Nat.digitChar n] := by rw [decChars, dif_pos hn]
      rw [em, en] at h
      have hlen := congrArg List.length h
      simp only [List.length_singleton, List.length_append, List.length_cons,
        List.length_nil] at hlen
      have : decChars (m / 10) = [] := List.length_eq_zero.mp (by omega)
      exact absurd this (decChars_ne_nil _)
    · have em : decChars m = decChars (m / 10) ++ [Nat.digitChar (m % 10)] := by
        rw [decChars, dif_neg hm]
      have en : decChars n = decChars (n / 10) ++ [Nat.digitChar (n % 10)] := by
        rw [decChars, dif_neg hn]
      rw [em, en] at h
      obtain ⟨h1, h2⟩ := List.append_inj' h rfl
      simp only [List.cons.injEq, and_true] at h2
      have hmod : m % 10 = n % 10 :=
        digitChar_inj_lt _ (Nat.mod_lt _ (by omega)) _ (Nat.mod_lt _ (by omega)) h2
      have hdiv : m / 10 = n / 10 :=
        ih (m / 10) (Nat.div_lt_self (by omega) (by omega)) (n / 10) h1
      omega

/-- A list equation `l1 ++ ':' :: r1 = l2 ++ ':' :: r2` with colon-free
prefixes splits at the first colon. -/
theorem colon_split :
    ∀ (l1 r1 l2 r2 : List Char), (∀ c ∈ l1, c ≠ ':') → (∀ c ∈ l2, c ≠ ':') →
      l1 ++ ':' :: r1 = l2 ++ ':' :: r2 → l1 = l2 ∧ r1 = r2 := by
  intro l1
  induction l1 with
  | nil =>
    intro r1 l2 r2 _ h2 h
    cases l2 with
    | nil =>
      simp only [List.nil_append, List.cons.injEq, true_and] at h
      exact ⟨rfl, h⟩
    | cons b l2 =>
      simp only [List.nil_append, List.cons_append, List.cons.injEq] at h
      exact absurd h.1.symm (h2 b (by simp))
  | cons a l1 ih =>
    intro r1 l2 r2 h1 h2 h
    cases l2 with
    | nil =>
      simp only [List.cons_append, List.nil_append, List.cons.injEq] at h
      exact absurd h.1 (h1 a (by simp))
    | cons b l2 =>
      simp only [List.cons_append, List.cons.injEq] at h
      obtain ⟨hab, htail⟩ := h
      obtain ⟨hl, hr⟩ :=
        ih r1 l2 r2 (fun c hc => h1 c (by simp [hc])) (fun c hc => h2 c (by simp [hc])) htail
      exact ⟨by rw [hab, hl], hr⟩

/-- The composite key `"M" ++ decimal ++ ":" ++ name` determines, and is
determined by, the slot index and the name. -/
theorem key_inj (i1 i2 : Nat) (n1 n2 : String) :
    ("M" ++ Nat.repr i1) ++ ":" ++ n1 = ("M" ++ Nat.repr i2) ++ ":" ++ n2 ↔
      i1 = i2 ∧ n1 = n2 := by
  constructor
  · intro h
    rw [String.ext_iff] at h
    simp only [String.data_append] at h
    rw [repr_data, repr_data] at h
    simp only [List.append_assoc, List.singleton_append] at h
    injection h with hhead h
    obtain ⟨hd, ht⟩ :=
      colon_split _ _ _ _ (decChars_ne_colon i1) (decChars_ne_colon i2) h
    exact ⟨decChars_inj _ _ hd, String.ext ht⟩
  · rintro ⟨rfl, rfl⟩
    rfl

/-- C7: the field `calibration_key` equals `axis ++ ":" ++ name`, and is computed only
at construction — no action method changes it; two facades constructed with
the same slot index and carrying the same name have identical keys, and
facades differing in the `name` field or in the slot index have different
keys. -/
theorem calibration_key_determinism (i1 i2 : Nat) (n1 n2 c1 c2 : Option String)
    (m1 m2 : String) (st1 st2 : String → List String) :
    (Magbead.init n1 i1 c1 m1 st1).calibration_key =
      (Magbead.init n1 i1 c1 m1 st1).axis ++ ":" ++ (Magbead.init n1 i1 c1 m1 st1).name ∧
    ((Magbead.init n1 i1 c1 m1 st1).calibration_key =
        (Magbead.init n2 i2 c2 m2 st2).calibration_key ↔
      i1 = i2 ∧
        (Magbead.init n1 i1 c1 m1 st1).name = (Magbead.init n2 i2 c2 m2 st2).name) ∧
    (∀ (s : RobotState) (e : Bool) (secs : Int),
      ((Magbead.engage s e).1).bead.calibration_key = s.bead.calibration_key ∧
      ((Magbead.disengage s e).1).bead.calibration_key = s.bead.calibration_key ∧
      ((Magbead.delay s secs e).1).bead.calibration_key = s.bead.calibration_key) := by
  refine ⟨rfl, key_inj i1 i2 _ _, ?_⟩
  intro s e secs
  cases e <;> exact ⟨rfl, rfl, rfl⟩
